import Mathlib

/-!
Verification development for the go-spring web router core.

The router group (`mux.go`) is embedded directly from the source.  The
trie (`tree.go`) and the route context (`context.go`) are not part of the
provided sources (only their tests and callers are), so those definitions
are modelled from the specification, as indicated by their doc comments.
Handlers, middlewares and renderers are opaque to the router, so they are
represented by numeric identifiers; panics are represented by
`Except.error`.
-/

namespace Web

/-- The enumerated HTTP methods supported by the router (from the source
doc comment on `Any`: GET, POST, PUT, PATCH, HEAD, OPTIONS, DELETE,
CONNECT, TRACE). -/
inductive Method where
  | GET
  | HEAD
  | POST
  | PUT
  | PATCH
  | DELETE
  | CONNECT
  | OPTIONS
  | TRACE
deriving DecidableEq, Repr

def allMethods : List Method :=
  [.GET, .HEAD, .POST, .PUT, .PATCH, .DELETE, .CONNECT, .OPTIONS, .TRACE]

/-- Modelled from the spec: `methodMap` (missing `tree.go`) maps the
recognized HTTP method names to the method enumeration; any other string
is unrecognized. -/
def methodMap : String → Option Method
  | "GET" => some .GET
  | "HEAD" => some .HEAD
  | "POST" => some .POST
  | "PUT" => some .PUT
  | "PATCH" => some .PATCH
  | "DELETE" => some .DELETE
  | "CONNECT" => some .CONNECT
  | "OPTIONS" => some .OPTIONS
  | "TRACE" => some .TRACE
  | _ => none

/-- A registration method pattern: a single method, or the ALL
pseudo-method which registers a handler for every enumerated method. -/
inductive MethodPat where
  | all
  | one (m : Method)
deriving DecidableEq, Repr

/-- Parallel key/value sequences of captured path parameters
(`RouteParams` of the missing `context.go`, field names from the tests). -/
structure RouteParams where
  Keys : List String := []
  Values : List String := []
deriving DecidableEq, Repr

def RouteParams.push (p : RouteParams) (k v : String) : RouteParams :=
  ⟨p.Keys ++ [k], p.Values ++ [v]⟩

/-- A handler reference: a user-registered handler, or one of the two
built-in defaults used for 404 and 405 responses. -/
inductive HandlerRef where
  | user (h : Nat)
  | defaultNotFound
  | defaultNotAllowed
deriving DecidableEq, Repr

/-- Modelled from the spec: the pooled per-request `RouteContext` of the
missing `context.go`; fields are those exercised by the source test
`TestRouteContext_Reset`.  The owning-table reference `Routes` is
modelled as a presence flag. -/
structure RouteContext where
  Routes : Bool := false
  RoutePath : String := ""
  RouteMethod : String := ""
  routePattern : String := ""
  routePatterns : List String := []
  URLParams : RouteParams := {}
  routeParams : RouteParams := {}
  methodNotAllowed : Bool := false
  methodsAllowed : List Method := []
deriving DecidableEq, Repr

def RouteContext.empty : RouteContext := {}

/-- Modelled from the spec: `Reset` (missing `context.go`) clears every
field of the context before it is returned to the pool ("all slices
truncated to zero length, all flags cleared, all references nilled"). -/
def RouteContext.Reset (c : RouteContext) : RouteContext :=
  { c with
    Routes := false
    RoutePath := ""
    RouteMethod := ""
    routePattern := ""
    routePatterns := []
    URLParams := ⟨[], []⟩
    routeParams := ⟨[], []⟩
    methodNotAllowed := false
    methodsAllowed := [] }

/-- Split a list of characters into path segments at every slash. -/
def splitSegs : List Char → List String
  | [] => [""]
  | c :: rest =>
    if c = '/' then "" :: splitSegs rest
    else
      match splitSegs rest with
      | s :: ss => String.mk (c :: s.data) :: ss
      | [] => [String.mk [c]]

/-- Split a path into its segments, dropping the leading slash. -/
def splitPath (p : String) : List String :=
  match p.data with
  | '/' :: rest => splitSegs rest
  | cs => splitSegs cs

def lbrace : Char := '\x7b'
def rbrace : Char := '\x7d'

/-- One segment of a routing pattern. -/
inductive SegPat where
  | static (s : String)
  | regex (name pat : String)
  | param (name : String)
  | wild
deriving DecidableEq, Repr

/-- Split a character list at the first colon, if any. -/
def splitColon : List Char → List Char × Option (List Char)
  | [] => ([], none)
  | ':' :: rest => ([], some rest)
  | c :: rest =>
    match splitColon rest with
    | (a, b) => (c :: a, b)

/-- Modelled from the spec: classify one pattern segment — `*` is the
wildcard, a braced segment is a parameter (with an optional `:regex`
suffix), anything else is static text. -/
def parseSeg (s : String) : SegPat :=
  if s = "*" then .wild
  else
    match s.data with
    | c :: _ =>
      if c = lbrace ∧ s.data.getLast? = some rbrace then
        let inner := (s.data.drop 1).dropLast
        match splitColon inner with
        | (n, none) => .param (String.mk n)
        | (n, some re) => .regex (String.mk n) (String.mk re)
      else .static s
    | [] => .static s

def parsePattern (p : String) : List SegPat := (splitPath p).map parseSeg

/-- Modelled from the spec: evaluation of a regex-constrained segment
("testing the path segment against the compiled pattern").  The model
interprets the digit class `\d+` used by the specification's examples;
other regex sources are outside the modelled subset and match nothing. -/
def matchRegex (pat s : String) : Bool :=
  if pat = "\\d+" then !s.data.isEmpty && s.data.all Char.isDigit else false

/-- A registered endpoint: its handler and the original pattern string. -/
structure Endpoint where
  handler : Nat
  pattern : String
deriving DecidableEq, Repr

/-- Modelled from the spec: a node of the routing trie (missing
`tree.go`), at path-segment granularity — static children, regex
children (in registration order), one parametric child, one wildcard
child, per-method endpoints, and an optional mounted sub-table. -/
inductive RTree where
  | mk (static : List (String × RTree))
       (regex : List (String × String × RTree))
       (param : Option (String × RTree))
       (wild : Option RTree)
       (endpoints : List (Method × Endpoint))
       (sub : Option RTree)

def RTree.static : RTree → List (String × RTree)
  | .mk st _ _ _ _ _ => st

def RTree.regex : RTree → List (String × String × RTree)
  | .mk _ rx _ _ _ _ => rx

def RTree.param : RTree → Option (String × RTree)
  | .mk _ _ pm _ _ _ => pm

def RTree.wild : RTree → Option RTree
  | .mk _ _ _ wd _ _ => wd

def RTree.endpoints : RTree → List (Method × Endpoint)
  | .mk _ _ _ _ eps _ => eps

def RTree.sub : RTree → Option RTree
  | .mk _ _ _ _ _ sb => sb

def RTree.empty : RTree := .mk [] [] none none [] none

/-- Association lookup among static children. -/
def alookup : List (String × RTree) → String → Option RTree
  | [], _ => none
  | (k, v) :: t, s => if k = s then some v else alookup t s

/-- Replace-or-append among static children. -/
def setStatic : List (String × RTree) → String → RTree → List (String × RTree)
  | [], s, c => [(s, c)]
  | (k, v) :: t, s, c => if k = s then (k, c) :: t else (k, v) :: setStatic t s c

/-- Lookup of a regex child by its parameter name and regex source. -/
def regexLookup : List (String × String × RTree) → String → String → Option RTree
  | [], _, _ => none
  | (n, p, c) :: t, name, pat =>
    if n = name ∧ p = pat then some c else regexLookup t name pat

/-- Replace-or-append among regex children, preserving registration
order. -/
def setRegex : List (String × String × RTree) → String → String → RTree →
    List (String × String × RTree)
  | [], name, pat, c => [(name, pat, c)]
  | (n, p, v) :: t, name, pat, c =>
    if n = name ∧ p = pat then (n, p, c) :: t else (n, p, v) :: setRegex t name pat c

/-- First regex child whose pattern matches the segment (registration
order). -/
def findRegex : List (String × String × RTree) → String → Option (String × RTree)
  | [], _ => none
  | (n, p, c) :: t, seg => if matchRegex p seg then some (n, c) else findRegex t seg

/-- Endpoint lookup by method. -/
def epLookup : List (Method × Endpoint) → Method → Option Endpoint
  | [], _ => none
  | (m', e) :: t, m => if m' = m then some e else epLookup t m

/-- Set the endpoint for one method, replacing any previous one. -/
def setEp : List (Method × Endpoint) → Method → Endpoint → List (Method × Endpoint)
  | [], m, e => [(m, e)]
  | (m', e') :: t, m, e => if m' = m then (m, e) :: t else (m', e') :: setEp t m e

/-- Set the endpoint for a method pattern; the ALL pseudo-method
registers the endpoint under every enumerated method. -/
def setEndpoints (eps : List (Method × Endpoint)) (mp : MethodPat) (e : Endpoint) :
    List (Method × Endpoint) :=
  match mp with
  | .one m => setEp eps m e
  | .all => allMethods.foldl (fun a m => setEp a m e) eps

/-- Modelled from the spec: trie insertion (missing `tree.go`) — walk or
create nodes for each pattern segment and register the endpoint at the
terminal node; a wildcard segment terminates the pattern and stores its
endpoints at the wildcard child. -/
def insertSegs : RTree → List SegPat → MethodPat → Endpoint → RTree
  | .mk st rx pm wd eps sb, [], mp, e => .mk st rx pm wd (setEndpoints eps mp e) sb
  | .mk st rx pm wd eps sb, .static s :: rest, mp, e =>
    let child := (alookup st s).getD RTree.empty
    .mk (setStatic st s (insertSegs child rest mp e)) rx pm wd eps sb
  | .mk st rx pm wd eps sb, .regex n pat :: rest, mp, e =>
    let child := (regexLookup rx n pat).getD RTree.empty
    .mk st (setRegex rx n pat (insertSegs child rest mp e)) pm wd eps sb
  | .mk st rx pm wd eps sb, .param n :: rest, mp, e =>
    let child := match pm with
      | some (_, c) => c
      | none => RTree.empty
    .mk st rx (some (n, insertSegs child rest mp e)) wd eps sb
  | .mk st rx pm wd eps sb, .wild :: _, mp, e =>
    match wd.getD RTree.empty with
    | .mk cst crx cpm cwd ceps csb =>
      .mk st rx pm (some (.mk cst crx cpm cwd (setEndpoints ceps mp e) csb)) eps sb

def InsertRoute (t : RTree) (mp : MethodPat) (pattern : String) (h : Nat) : RTree :=
  insertSegs t (parsePattern pattern) mp ⟨h, pattern⟩

/-- Join path segments with slashes (the remainder captured by a
wildcard). -/
def joinSegs : List String → String
  | [] => ""
  | [s] => s
  | s :: rest => s ++ "/" ++ joinSegs rest

/-- The method-miss information accumulated during a lookup. -/
structure MissState where
  methodNotAllowed : Bool := false
  methodsAllowed : List Method := []
deriving DecidableEq, Repr

/-- Record a complete-path match whose node has no handler for the
requested method: set the method-not-allowed flag and extend the
allowed-methods set with the node's registered methods. -/
def missAt (st : MissState) (eps : List (Method × Endpoint)) : MissState :=
  ⟨true, st.methodsAllowed ++ eps.map Prod.fst⟩

/-- Modelled from the spec: the trie walk of `FindRoute` (missing
`tree.go`).  At each node the child types are attempted in priority
order static, regex, parametric, wildcard, backtracking on dead ends;
among regex siblings the first whose pattern matches the segment wins
(registration order); a parametric child consumes one nonempty segment;
the wildcard child consumes the whole remainder (its capture always
succeeds) and is attempted last.  A node reached with the whole path
consumed but no handler for the requested method records the
method-not-allowed signal and the allowed methods, and the walk goes on
backtracking. -/
def findCore (t : RTree) (m : Method) (segs : List String) (acc : RouteParams)
    (st : MissState) : MissState × Option (RouteParams × RTree × Endpoint) :=
  match segs with
  | [] =>
    match epLookup t.endpoints m with
    | some e => (st, some (acc, t, e))
    | none =>
      if t.endpoints.isEmpty then (st, none) else (missAt st t.endpoints, none)
  | seg :: rest =>
    let s1 :=
      match alookup t.static seg with
      | some c => findCore c m rest acc st
      | none => (st, none)
    match s1 with
    | (st1, some r) => (st1, some r)
    | (st1, none) =>
      let s2 :=
        match findRegex t.regex seg with
        | some (n, c) => findCore c m rest (acc.push n seg) st1
        | none => (st1, none)
      match s2 with
      | (st2, some r) => (st2, some r)
      | (st2, none) =>
        let s3 :=
          match t.param with
          | some (n, c) =>
            if seg = "" then (st2, none) else findCore c m rest (acc.push n seg) st2
          | none => (st2, none)
        match s3 with
        | (st3, some r) => (st3, some r)
        | (st3, none) =>
          match t.wild with
          | some c =>
            let acc4 := acc.push "*" (joinSegs (seg :: rest))
            match epLookup c.endpoints m with
            | some e => (st3, some (acc4, c, e))
            | none =>
              if c.endpoints.isEmpty then (st3, none) else (missAt st3 c.endpoints, none)
          | none => (st3, none)

/-- Modelled from the spec: `FindRoute` (missing `tree.go`) — reset the
working captures, walk the trie, and on success append the captured
parameters to `URLParams` in descent order and record the matched
pattern. -/
def FindRoute (t : RTree) (ctx : RouteContext) (m : Method) (path : String) :
    RouteContext × Option (RTree × Endpoint) :=
  let ctx0 := { ctx with routePattern := "", routeParams := ⟨[], []⟩ }
  let res := findCore t m (splitPath path) ⟨[], []⟩
    ⟨ctx0.methodNotAllowed, ctx0.methodsAllowed⟩
  match res with
  | (st, some (ps, node, e)) =>
    ({ ctx0 with
        methodNotAllowed := st.methodNotAllowed
        methodsAllowed := st.methodsAllowed
        routeParams := ps
        URLParams := ⟨ctx0.URLParams.Keys ++ ps.Keys, ctx0.URLParams.Values ++ ps.Values⟩
        routePattern := e.pattern
        routePatterns := ctx0.routePatterns ++ [e.pattern] },
      some (node, e))
  | (st, none) =>
    ({ ctx0 with
        methodNotAllowed := st.methodNotAllowed
        methodsAllowed := st.methodsAllowed },
      none)

/-- Whether the first character list is a prefix of the second. -/
def isPre : List Char → List Char → Bool
  | [], _ => true
  | _ :: _, [] => false
  | a :: as, b :: bs => a = b && isPre as bs

/-- Drop a suffix from a string when present (`strings.TrimSuffix`). -/
def trimSuffix (s suf : String) : String :=
  if isPre suf.data.reverse s.data.reverse then
    String.mk (s.data.take (s.data.length - suf.data.length))
  else s

/-- Concatenation of a list of strings (`strings.Join` with an empty
separator). -/
def concatAll : List String → String
  | [] => ""
  | s :: rest => s ++ concatAll rest

/-- Modelled from the spec: the wildcard-collapsing rewrite of
`replaceWildcards` (missing `context.go`): every interior `/*/` run of
the joined pattern collapses into a single slash, while a terminal
wildcard stays visible as `*` (behaviour fixed by the source test
`TestContext_replaceWildcards`).  The booleans track whether the last
emitted character was a slash and whether a star right after a slash is
still waiting for the character that decides its fate. -/
def rwAux (afterSlash pendingStar : Bool) : List Char → List Char
  | [] => if pendingStar then ['*'] else []
  | c :: rest =>
    if pendingStar then
      if c = '/' then rwAux true false rest
      else '*' :: c :: rwAux false false rest
    else if c = '/' then '/' :: rwAux true false rest
    else if afterSlash ∧ c = '*' then rwAux false true rest
    else c :: rwAux false false rest

def replaceWildcards (p : String) : String := String.mk (rwAux false false p.data)

/-- Modelled from the spec: `RoutePattern` (missing `context.go`)
concatenates the accumulated pattern fragments in descent order,
collapses wildcard segments and trims the trailing slash (behaviour
fixed by the source test `TestRouteContext_RoutePattern`). -/
def RouteContext.RoutePattern (c : RouteContext) : String :=
  let p := replaceWildcards (concatAll c.routePatterns)
  if p = "/" then p else trimSuffix (trimSuffix p "//") "/"

/-- The remaining route path handed to a mounted sub-router: a slash
followed by the value captured by the trailing wildcard parameter, or a
bare slash when no wildcard value was captured (source
`routerGroup.nextRoutePath`). -/
def nextRoutePath (ctx : RouteContext) : String :=
  let keys := ctx.routeParams.Keys
  let vals := ctx.routeParams.Values
  if 0 < keys.length ∧ keys.getD (keys.length - 1) "" = "*" ∧ keys.length - 1 < vals.length
  then "/" ++ vals.getD (keys.length - 1) ""
  else "/"

/-- The context rewrite the mount handler performs before delegating to
the mounted handler: shift the route path past the mount point and blank
the wildcard URL parameter that connects the sub-router (source
`routerGroup.Mount`, the `mountHandler` closure). -/
def mountHandlerStep (ctx : RouteContext) : RouteContext :=
  let ctx1 := { ctx with RoutePath := nextRoutePath ctx }
  let keys := ctx1.URLParams.Keys
  let vals := ctx1.URLParams.Values
  if 0 < keys.length ∧ keys.getD (keys.length - 1) "" = "*" ∧ keys.length - 1 < vals.length
  then { ctx1 with URLParams := ⟨keys, vals.set (keys.length - 1) ""⟩ }
  else ctx1

/-- Modelled from the spec: `findPattern` (missing `tree.go`) — whether
the given routing pattern already exists as a registered path of the
tree. -/
def findPatternSegs : RTree → List SegPat → Bool
  | t, [] => !t.endpoints.isEmpty
  | t, .static s :: rest =>
    match alookup t.static s with
    | some c => findPatternSegs c rest
    | none => false
  | t, .regex n pat :: rest =>
    match regexLookup t.regex n pat with
    | some c => findPatternSegs c rest
    | none => false
  | t, .param _ :: rest =>
    match t.param with
    | some (_, c) => findPatternSegs c rest
    | none => false
  | t, .wild :: _ =>
    match t.wild with
    | some c => !c.endpoints.isEmpty
    | none => false

def findPattern (t : RTree) (pattern : String) : Bool :=
  findPatternSegs t (parsePattern pattern)

/-- The router group of the source (`routerGroup`): the sealed handler
chain (`none` until the first route is registered), the inline flag, the
routing tree, the middleware list, the default renderer and the optional
failure handlers.  Middlewares and renderers are identifiers; the sealed
handler records the middleware chain captured at seal time. -/
structure RouterGroup where
  handler : Option (List Nat) := none
  inline : Bool := false
  tree : RTree := RTree.empty
  middlewares : List Nat := []
  renderer : Nat := 0
  notFoundHandler : Option Nat := none
  notAllowedHandler : Option Nat := none

def JsonRender : Nat := 1

def NewRouter : RouterGroup := { renderer := JsonRender }

/-- The not-found handler used at dispatch: the registered one when
present, the built-in default otherwise (source
`routerGroup.NotFoundHandler`). -/
def RouterGroup.NotFoundHandler (rg : RouterGroup) : HandlerRef :=
  match rg.notFoundHandler with
  | some h => .user h
  | none => .defaultNotFound

/-- The method-not-allowed handler used at dispatch: the registered one
when present, the built-in default otherwise (source
`routerGroup.NotAllowedHandler`). -/
def RouterGroup.NotAllowedHandler (rg : RouterGroup) : HandlerRef :=
  match rg.notAllowedHandler with
  | some h => .user h
  | none => .defaultNotAllowed

/-- Append middlewares to the chain; a programming error once a route
has sealed the chain (source `routerGroup.Use`). -/
def RouterGroup.Use (rg : RouterGroup) (mwf : List Nat) : Except String RouterGroup :=
  if rg.handler ≠ none then .error "middlewares must be defined before routes registers"
  else .ok { rg with middlewares := rg.middlewares ++ mwf }

/-- Set the default renderer; a programming error once a route has
sealed the chain (source `routerGroup.Renderer`). -/
def RouterGroup.Renderer (rg : RouterGroup) (r : Nat) : Except String RouterGroup :=
  if rg.handler ≠ none then .error "renderer must be defined before routes registers"
  else .ok { rg with renderer := r }

/-- Register a route (source `routerGroup.handle`): a pattern that is
empty or does not begin with a slash is a fatal configuration error,
raised before the tree is touched; otherwise the first registration
seals the handler chain and the endpoint is inserted into the tree. -/
def RouterGroup.handle (rg : RouterGroup) (mp : MethodPat) (pattern : String) (h : Nat) :
    Except String RouterGroup :=
  if pattern.length = 0 ∨ pattern.data.head? ≠ some '/' then
    .error ("routing pattern must begin with / in " ++ pattern)
  else
    let rg1 := if ¬rg.inline ∧ rg.handler = none then { rg with handler := some rg.middlewares }
      else rg
    let rg2 := if rg1.inline then { rg1 with handler := some rg1.middlewares } else rg1
    .ok { rg2 with tree := InsertRoute rg2.tree mp pattern h }

/-- Register a route for a named method string (source
`routerGroup.method`); an unsupported method name is a fatal error. -/
def RouterGroup.method (rg : RouterGroup) (method pattern : String) (h : Nat) :
    Except String RouterGroup :=
  match methodMap method with
  | some m => rg.handle (.one m) pattern h
  | none => .error (method ++ " http method is not supported")

/-- Register a GET route (source `routerGroup.Get`; the reflective
binding wrapper is outside the modelled core, so the handler identifier
passes through unchanged). -/
def RouterGroup.Get (rg : RouterGroup) (pattern : String) (h : Nat) :
    Except String RouterGroup :=
  rg.handle (.one .GET) pattern h

/-- What is mounted: the mount handler identifier and, for a sub-router,
its routing tree. -/
structure MountTarget where
  hId : Nat
  subTree : Option RTree := none

/-- Attach a mounted sub-table at the wildcard node of the given pattern
segments. -/
def attachSub : RTree → List SegPat → RTree → RTree
  | t, [], _ => t
  | .mk st rx pm wd eps sb, .wild :: _, subT =>
    match wd with
    | some (.mk cst crx cpm cwd ceps _) =>
      .mk st rx pm (some (.mk cst crx cpm cwd ceps (some subT))) eps sb
    | none => .mk st rx pm wd eps sb
  | .mk st rx pm wd eps sb, .static s :: rest, subT =>
    match alookup st s with
    | some c => .mk (setStatic st s (attachSub c rest subT)) rx pm wd eps sb
    | none => .mk st rx pm wd eps sb
  | .mk st rx pm wd eps sb, .regex n pat :: rest, subT =>
    match regexLookup rx n pat with
    | some c => .mk st (setRegex rx n pat (attachSub c rest subT)) pm wd eps sb
    | none => .mk st rx pm wd eps sb
  | .mk st rx pm wd eps sb, .param _ :: rest, subT =>
    match pm with
    | some (n, c) => .mk st rx (some (n, attachSub c rest subT)) wd eps sb
    | none => .mk st rx pm wd eps sb

/-- Mount a handler or sub-router along `pattern/*` (source
`routerGroup.Mount`): mounting a nil handler is fatal, as is mounting on
a pattern whose wildcard-expanded form already exists as a registered
path; otherwise the mount handler is registered at the pattern, the
pattern with a trailing slash, and the trailing-wildcard pattern, and a
sub-router's table is attached at the wildcard node.  The failure
handler inheritance performed here is modelled on the group nesting
structure (`GroupT`) below. -/
def RouterGroup.Mount (rg : RouterGroup) (pattern : String) (target : Option MountTarget) :
    Except String RouterGroup :=
  match target with
  | none => .error ("attempting to Mount a nil handler on " ++ pattern)
  | some tgt =>
    if findPattern rg.tree (pattern ++ "*") ∨ findPattern rg.tree (pattern ++ "/*") then
      .error ("attempting to Mount a handler on an existing path " ++ pattern)
    else
      let step1 : Except String (RouterGroup × String) :=
        if pattern = "" ∨ pattern.data.getLast? ≠ some '/' then
          (rg.handle .all pattern tgt.hId).bind fun rga =>
            (rga.handle .all (pattern ++ "/") tgt.hId).map fun rgb => (rgb, pattern ++ "/")
        else .ok (rg, pattern)
      step1.bind fun p =>
        (p.1.handle .all (p.2 ++ "*") tgt.hId).map fun rgc =>
          match tgt.subTree with
          | some s => { rgc with tree := attachSub rgc.tree (parsePattern (p.2 ++ "*")) s }
          | none => rgc

/-- The classified outcome of routing one request. -/
inductive Outcome where
  | matched (h : Nat)
  | notFound (h : HandlerRef)
  | notAllowed (h : HandlerRef)
deriving DecidableEq, Repr

/-- Route a request through the tree (source `routerGroup.routeHTTP`):
resolve the routing path and method, reject unrecognized methods with
the method-not-allowed handler, and otherwise classify the tree lookup
as matched, method-not-allowed or not-found. -/
def RouterGroup.routeHTTP (rg : RouterGroup) (ctx : RouteContext)
    (reqMethod urlPath : String) : RouteContext × Outcome :=
  let routePath :=
    if ctx.RoutePath = "" then (if urlPath = "" then "/" else urlPath) else ctx.RoutePath
  let ctx1 := if ctx.RouteMethod = "" then { ctx with RouteMethod := reqMethod } else ctx
  match methodMap ctx1.RouteMethod with
  | none => (ctx1, .notAllowed rg.NotAllowedHandler)
  | some m =>
    match FindRoute rg.tree ctx1 m routePath with
    | (ctx2, some (_, e)) => (ctx2, .matched e.handler)
    | (ctx2, none) =>
      if ctx2.methodNotAllowed then (ctx2, .notAllowed rg.NotAllowedHandler)
      else (ctx2, .notFound rg.NotFoundHandler)

/-- Take a context from the pool, or a fresh one when the pool is
empty (`sync.Pool` acquire). -/
def poolGet (pool : List RouteContext) : RouteContext × List RouteContext :=
  match pool with
  | [] => (RouteContext.empty, [])
  | c :: cs => (c, cs)

/-- Return a context to the pool (`sync.Pool` release). -/
def poolPut (c : RouteContext) (pool : List RouteContext) : List RouteContext :=
  c :: pool

/-- The context lifecycle of dispatch (source `routerGroup.ServeHTTP`):
with no registered route the pool is untouched and the not-found handler
answers; with a pre-existing route context the sealed chain runs on it
and the pool is untouched; otherwise a context is acquired from the
pool, given the owning-table reference, threaded through the handler
chain (`run`), then reset and returned to the pool.  The function yields
the pool as it stands after the request. -/
def RouterGroup.ServeHTTP (rg : RouterGroup) (pre : Option RouteContext)
    (run : RouteContext → RouteContext) (pool : List RouteContext) : List RouteContext :=
  match rg.handler with
  | none => pool
  | some _ =>
    match pre with
    | some _ => pool
    | none =>
      let acq := poolGet pool
      let ctx := { acq.1 with Routes := true }
      let ctxAfter := run ctx
      poolPut ctxAfter.Reset acq.2

/-- Match a method and path against the tree without running the handler
(source `routerGroup.Match`); the fuel bounds the mount-nesting depth
the recursion may descend through. -/
def MatchAux : Nat → RTree → RouteContext → String → String → Bool × RouteContext
  | 0, _, ctx, _, _ => (false, ctx)
  | Nat.succ fuel, t, ctx, method, path =>
    match methodMap method with
    | none => (false, ctx)
    | some m =>
      match FindRoute t ctx m path with
      | (ctx1, some (node, _)) =>
        match node.sub with
        | some subT =>
          let ctx2 := { ctx1 with RoutePath := nextRoutePath ctx1 }
          MatchAux fuel subT ctx2 method ctx2.RoutePath
        | none => (true, ctx1)
      | (ctx1, none) => (false, ctx1)

def RouterGroup.Match (fuel : Nat) (rg : RouterGroup) (ctx : RouteContext)
    (method path : String) : Bool × RouteContext :=
  MatchAux fuel rg.tree ctx method path

/-- Find the registered pattern matching a method and path (source
`routerGroup.Find`), descending through mounted sub-tables and gluing
their patterns behind the consumed mount prefix. -/
def FindAux : Nat → RTree → RouteContext → String → String → String × RouteContext
  | 0, _, ctx, _, _ => ("", ctx)
  | Nat.succ fuel, t, ctx, method, path =>
    match methodMap method with
    | none => ("", ctx)
    | some m =>
      match FindRoute t ctx m path with
      | (ctx1, some (node, _)) =>
        match node.sub with
        | none =>
          match epLookup node.endpoints m with
          | some e => (e.pattern, ctx1)
          | none => ("", ctx1)
        | some subT =>
          let pat := ctx1.routePattern
          let ctx2 := { ctx1 with RoutePath := nextRoutePath ctx1 }
          let sp := FindAux fuel subT ctx2 method ctx2.RoutePath
          if sp.1 = "" then ("", sp.2)
          else (trimSuffix pat "/*" ++ sp.1, sp.2)
      | (ctx1, none) => (ctx1.routePattern, ctx1)

def RouterGroup.Find (fuel : Nat) (rg : RouterGroup) (ctx : RouteContext)
    (method path : String) : String × RouteContext :=
  FindAux fuel rg.tree ctx method path

/-- The group-nesting structure used by the failure-handler inheritance:
each group carries its optional not-found and method-not-allowed
handlers and the sub-groups mounted beneath it (the `SubRoutes`
collected by `routerGroup.updateSubRoutes` from the tree). -/
inductive GroupT where
  | mk (notFoundHandler : Option Nat) (notAllowedHandler : Option Nat) (subs : List GroupT)

def GroupT.notFoundHandler : GroupT → Option Nat
  | .mk nf _ _ => nf

def GroupT.notAllowedHandler : GroupT → Option Nat
  | .mk _ na _ => na

def GroupT.subs : GroupT → List GroupT
  | .mk _ _ s => s

mutual

/-- Set the not-found handler and propagate it to every mounted
sub-group that has not set its own (source `routerGroup.NotFound` with
`routerGroup.updateSubRoutes`; the inline branch is dead code here since
the source never sets `inline` or `parent`). -/
def GroupT.NotFound (h : Nat) : GroupT → GroupT
  | .mk _ na subs => .mk (some h) na (notFoundSubs h subs)

def notFoundSubs (h : Nat) : List GroupT → List GroupT
  | [] => []
  | g :: gs =>
    (if g.notFoundHandler = none then GroupT.NotFound h g else g) :: notFoundSubs h gs

end

mutual

/-- Set the method-not-allowed handler and propagate it to every mounted
sub-group that has not set its own (source
`routerGroup.MethodNotAllowed`). -/
def GroupT.MethodNotAllowed (h : Nat) : GroupT → GroupT
  | .mk nf _ subs => .mk nf (some h) (notAllowedSubs h subs)

def notAllowedSubs (h : Nat) : List GroupT → List GroupT
  | [] => []
  | g :: gs =>
    (if g.notAllowedHandler = none then GroupT.MethodNotAllowed h g else g) :: notAllowedSubs h gs

end

/-- The handler inheritance a mount performs on the attached sub-router
(source `routerGroup.Mount`, lines assigning the parent handlers to the
sub-router when it has none of its own). -/
def mountedChild (parent child : GroupT) : GroupT :=
  let child1 :=
    if child.notFoundHandler = none then
      match parent.notFoundHandler with
      | some h => child.NotFound h
      | none => child
    else child
  if child1.notAllowedHandler = none then
    match parent.notAllowedHandler with
    | some h => child1.MethodNotAllowed h
    | none => child1
  else child1

/-- Mounting a sub-router: apply the handler inheritance to the child
and link it beneath the parent. -/
def GroupT.mount (parent child : GroupT) : GroupT :=
  .mk parent.notFoundHandler parent.notAllowedHandler
    (parent.subs ++ [mountedChild parent child])

/-! Theorems about the embedded router. -/

/-- C4: a route registration (the source `handle`, reached by every
public registration wrapper such as `Get`) whose pattern is the empty
string or whose first byte is not a slash panics at configuration time,
before any node is inserted into the group's routing tree — registration
never reports a malformed pattern as a runtime routing error. -/
theorem C4_malformed_pattern_panics (rg : RouterGroup) (mp : MethodPat)
    (pattern : String) (h : Nat)
    (hbad : pattern = "" ∨ pattern.data.head? ≠ some '/') :
    rg.handle mp pattern h = .error ("routing pattern must begin with / in " ++ pattern) ∧
    rg.Get pattern h = .error ("routing pattern must begin with / in " ++ pattern) ∧
    ∀ rg', rg.handle mp pattern h ≠ .ok rg' := by
  have hc : pattern.length = 0 ∨ pattern.data.head? ≠ some '/' := by
    rcases hbad with h1 | h1
    · exact Or.inl (by simp [h1])
    · exact Or.inr h1
  have e1 : ∀ mp' : MethodPat, rg.handle mp' pattern h =
      .error ("routing pattern must begin with / in " ++ pattern) := by
    intro mp'
    rw [RouterGroup.handle, if_pos hc]
  refine ⟨e1 mp, ?_, ?_⟩
  · rw [RouterGroup.Get, e1 (.one .GET)]
  · intro rg'
    rw [e1 mp]
    intro hcontra
    cases hcontra

/-- Witness for C4 at the concrete malformed patterns `users` and the
empty string. -/
theorem C4_witness :
    NewRouter.handle .all "users" 0 = .error "routing pattern must begin with / in users" ∧
    NewRouter.Get "" 0 = .error "routing pattern must begin with / in " := by
  exact ⟨(C4_malformed_pattern_panics NewRouter .all "users" 0 (Or.inr (by decide))).1,
    (C4_malformed_pattern_panics NewRouter (.one .GET) "" 0 (Or.inl rfl)).2.1⟩

/-- C5: `Use` and `Renderer` panic on a group whose handler chain has
been sealed by a first route registration; before any route is
registered both succeed and update the group, and every successful
registration seals the chain. -/
theorem C5_use_renderer_sealed (rg : RouterGroup) (mwf : List Nat) (r : Nat) :
    (rg.handler ≠ none →
      rg.Use mwf = .error "middlewares must be defined before routes registers" ∧
      rg.Renderer r = .error "renderer must be defined before routes registers") ∧
    (rg.handler = none →
      rg.Use mwf = .ok { rg with middlewares := rg.middlewares ++ mwf } ∧
      rg.Renderer r = .ok { rg with renderer := r }) ∧
    (∀ mp pattern h rg', rg.handle mp pattern h = .ok rg' → rg'.handler ≠ none) := by
  refine ⟨fun hne => ?_, fun heq => ?_, ?_⟩
  · constructor <;> simp [RouterGroup.Use, RouterGroup.Renderer, hne]
  · constructor <;> simp [RouterGroup.Use, RouterGroup.Renderer, heq]
  · intro mp pattern h rg' hok
    by_cases hg : pattern.length = 0 ∨ pattern.data.head? ≠ some '/'
    · rw [RouterGroup.handle, if_pos hg] at hok
      cases hok
    · rw [RouterGroup.handle, if_neg hg] at hok
      rcases hi : rg.inline with _ | _ <;> rcases hh : rg.handler with _ | x <;>
        simp [hi, hh] at hok <;> rcases hok with ⟨rfl⟩ <;> simp

/-- Witness for C5: a sealed group rejects `Use` while the fresh router
accepts it. -/
theorem C5_witness :
    RouterGroup.Use { handler := some [] } [3] =
      .error "middlewares must be defined before routes registers" ∧
    NewRouter.Use [3] = .ok { NewRouter with middlewares := [3] } := by
  exact ⟨((C5_use_renderer_sealed { handler := some [] } [3] 0).1 (by simp)).1,
    ((C5_use_renderer_sealed NewRouter [3] 0).2.1 rfl).1⟩

/-- C6: mounting panics when the wildcard-expanded form of the mount
pattern already exists as a registered path, and when the mounted
handler is nil; in both cases nothing is mounted. -/
theorem C6_mount_conflict_panics (rg : RouterGroup) (pattern : String) (tgt : MountTarget)
    (hconf : findPattern rg.tree (pattern ++ "*") = true ∨
      findPattern rg.tree (pattern ++ "/*") = true) :
    rg.Mount pattern (some tgt) =
      .error ("attempting to Mount a handler on an existing path " ++ pattern) ∧
    rg.Mount pattern none = .error ("attempting to Mount a nil handler on " ++ pattern) ∧
    (∀ tgt' rg', rg.Mount pattern (some tgt') = .ok rg' →
      findPattern rg.tree (pattern ++ "*") = false ∧
      findPattern rg.tree (pattern ++ "/*") = false) := by
  have hcond : (findPattern rg.tree (pattern ++ "*") ∨ findPattern rg.tree (pattern ++ "/*")) := by
    rcases hconf with h1 | h1 <;> simp [h1]
  refine ⟨?_, rfl, ?_⟩
  · rw [RouterGroup.Mount]
    simp only [if_pos hcond]
  · intro tgt' rg' hok
    rw [RouterGroup.Mount] at hok
    by_cases hw : (findPattern rg.tree (pattern ++ "*") ∨ findPattern rg.tree (pattern ++ "/*"))
    · rw [if_pos hw] at hok
      cases hok
    · constructor <;> [skip; skip] <;>
        (first
          | exact Bool.eq_false_iff.mpr (fun hb => hw (Or.inl hb))
          | exact Bool.eq_false_iff.mpr (fun hb => hw (Or.inr hb)))

/-- Witness for C6: mounting at `/api` on a group that has registered
`/api/*` panics, as does mounting a nil handler. -/
theorem C6_witness :
    RouterGroup.Mount { tree := InsertRoute RTree.empty .all "/api/*" 7 } "/api"
      (some ⟨9, none⟩) = .error "attempting to Mount a handler on an existing path /api" ∧
    RouterGroup.Mount { tree := InsertRoute RTree.empty .all "/api/*" 7 } "/api" none =
      .error "attempting to Mount a nil handler on /api" := by
  have := C6_mount_conflict_panics { tree := InsertRoute RTree.empty .all "/api/*" 7 }
    "/api" ⟨9, none⟩ (Or.inr (by decide))
  exact ⟨this.1, this.2.1⟩

/-- C10: a request whose method string is not in the method map is
answered by the method-not-allowed handler at once, for every group and
every path, independently of the routing tree and without touching the
allowed-methods state; `Match` returns false and `Find` returns the
empty pattern, both leaving the context untouched. -/
theorem C10_unrecognized_method (rg : RouterGroup) (ctx : RouteContext)
    (method path : String) (fuel : Nat) (t : RTree)
    (hm : methodMap method = none) (hctx : ctx.RouteMethod = "") :
    rg.routeHTTP ctx method path =
      ({ ctx with RouteMethod := method }, .notAllowed rg.NotAllowedHandler) ∧
    (rg.routeHTTP ctx method path).1.methodsAllowed = ctx.methodsAllowed ∧
    (rg.routeHTTP ctx method path).1.methodNotAllowed = ctx.methodNotAllowed ∧
    RouterGroup.routeHTTP { rg with tree := t } ctx method path =
      rg.routeHTTP ctx method path ∧
    RouterGroup.Match fuel { rg with tree := t } ctx method path = (false, ctx) ∧
    RouterGroup.Find fuel { rg with tree := t } ctx method path = ("", ctx) := by
  have hr : ∀ rga : RouterGroup, rga.routeHTTP ctx method path =
      ({ ctx with RouteMethod := method }, .notAllowed rga.NotAllowedHandler) := by
    intro rga
    rw [RouterGroup.routeHTTP]
    simp [hctx, hm]
  have hmatch : MatchAux fuel t ctx method path = (false, ctx) := by
    cases fuel with
    | zero => rfl
    | succ n =>
      rw [MatchAux]
      simp [hm]
  have hfind : FindAux fuel t ctx method path = ("", ctx) := by
    cases fuel with
    | zero => rfl
    | succ n =>
      rw [FindAux]
      simp [hm]
  refine ⟨hr rg, ?_, ?_, ?_, hmatch, hfind⟩
  · rw [hr rg]
  · rw [hr rg]
  · rw [hr rg, hr { rg with tree := t }]
    simp [RouterGroup.NotAllowedHandler]

/-- Witness for C10 at the unrecognized method `PROPFIND`. -/
theorem C10_witness :
    NewRouter.routeHTTP {} "PROPFIND" "/x" =
      ({ RouteMethod := "PROPFIND" }, .notAllowed .defaultNotAllowed) ∧
    RouterGroup.Match 3 NewRouter {} "PROPFIND" "/x" = (false, {}) := by
  have := C10_unrecognized_method NewRouter {} "PROPFIND" "/x" 3 NewRouter.tree
    (by decide) rfl
  exact ⟨this.1, this.2.2.2.2.1⟩

/-- C2: with a recognized method, dispatch yields exactly one of the
three classified outcomes: the matched handler when the tree lookup
returns one, the method-not-allowed handler when the lookup fails with
the method-not-allowed flag set, and the not-found handler otherwise;
for both failure outcomes the registered handler is used when present
and the built-in default otherwise. -/
theorem C2_dispatch_classification (rg : RouterGroup) (ctx : RouteContext)
    (reqMethod urlPath : String) (m : Method)
    (hm : methodMap (if ctx.RouteMethod = "" then { ctx with RouteMethod := reqMethod }
      else ctx).RouteMethod = some m) :
    (∀ ctx2 node e,
      FindRoute rg.tree
          (if ctx.RouteMethod = "" then { ctx with RouteMethod := reqMethod } else ctx) m
          (if ctx.RoutePath = "" then (if urlPath = "" then "/" else urlPath)
            else ctx.RoutePath) = (ctx2, some (node, e)) →
      rg.routeHTTP ctx reqMethod urlPath = (ctx2, .matched e.handler)) ∧
    (∀ ctx2,
      FindRoute rg.tree
          (if ctx.RouteMethod = "" then { ctx with RouteMethod := reqMethod } else ctx) m
          (if ctx.RoutePath = "" then (if urlPath = "" then "/" else urlPath)
            else ctx.RoutePath) = (ctx2, none) →
      rg.routeHTTP ctx reqMethod urlPath =
        (ctx2, if ctx2.methodNotAllowed then .notAllowed rg.NotAllowedHandler
          else .notFound rg.NotFoundHandler)) ∧
    ((∃ hh, (rg.routeHTTP ctx reqMethod urlPath).2 = .matched hh) ∨
      (rg.routeHTTP ctx reqMethod urlPath).2 = .notAllowed rg.NotAllowedHandler ∨
      (rg.routeHTTP ctx reqMethod urlPath).2 = .notFound rg.NotFoundHandler) ∧
    (∀ hh, rg.notFoundHandler = some hh → rg.NotFoundHandler = .user hh) ∧
    (rg.notFoundHandler = none → rg.NotFoundHandler = .defaultNotFound) ∧
    (∀ hh, rg.notAllowedHandler = some hh → rg.NotAllowedHandler = .user hh) ∧
    (rg.notAllowedHandler = none → rg.NotAllowedHandler = .defaultNotAllowed) := by
  rw [RouterGroup.routeHTTP]
  simp only [hm]
  refine ⟨?_, ?_, ?_, ?_, ?_, ?_, ?_⟩
  · intro ctx2 node e hf
    rw [hf]
  · intro ctx2 hf
    rw [hf]
    by_cases hflag : ctx2.methodNotAllowed <;> simp [hflag]
  · rcases hfr : FindRoute rg.tree
        (if ctx.RouteMethod = "" then { ctx with RouteMethod := reqMethod } else ctx) m
        (if ctx.RoutePath = "" then (if urlPath = "" then "/" else urlPath)
          else ctx.RoutePath) with ⟨ctx2, r⟩
    rcases r with _ | ⟨node, e⟩
    · by_cases hflag : ctx2.methodNotAllowed <;> simp [hflag]
    · exact Or.inl ⟨e.handler, rfl⟩
  · intro hh hreg
    simp [RouterGroup.NotFoundHandler, hreg]
  · intro hreg
    simp [RouterGroup.NotFoundHandler, hreg]
  · intro hh hreg
    simp [RouterGroup.NotAllowedHandler, hreg]
  · intro hreg
    simp [RouterGroup.NotAllowedHandler, hreg]

/-- Witness for C2 on a router with one GET route, dispatched at its
path: the outcome is one of the three classified results. -/
theorem C2_witness :
    (∃ hh, (RouterGroup.routeHTTP
        { handler := some [], tree := InsertRoute RTree.empty (.one .GET) "/x" 5 }
        {} "GET" "/x").2 = .matched hh) ∨
      (RouterGroup.routeHTTP
        { handler := some [], tree := InsertRoute RTree.empty (.one .GET) "/x" 5 }
        {} "GET" "/x").2 =
        .notAllowed (RouterGroup.NotAllowedHandler
          { handler := some [], tree := InsertRoute RTree.empty (.one .GET) "/x" 5 }) ∨
      (RouterGroup.routeHTTP
        { handler := some [], tree := InsertRoute RTree.empty (.one .GET) "/x" 5 }
        {} "GET" "/x").2 =
        .notFound (RouterGroup.NotFoundHandler
          { handler := some [], tree := InsertRoute RTree.empty (.one .GET) "/x" 5 }) :=
  (C2_dispatch_classification
    { handler := some [], tree := InsertRoute RTree.empty (.one .GET) "/x" 5 }
    {} "GET" "/x" .GET (by decide)).2.2.1

/-- C3: after the handler chain completes, `Reset` clears every field of
the route context (owning-table reference, route path and method,
pattern and pattern list, both parameter sequences, the
method-not-allowed flag and the allowed-methods set), the reset context
is what goes back to the pool, and the next acquisition from that pool
yields a context with empty parameter sequences. -/
theorem C3_context_pool_reset (rg : RouterGroup) (run : RouteContext → RouteContext)
    (pool : List RouteContext) (c : RouteContext) (mws : List Nat)
    (hs : rg.handler = some mws) :
    c.Reset = RouteContext.empty ∧
    c.Reset.Routes = false ∧
    c.Reset.RoutePath = "" ∧
    c.Reset.RouteMethod = "" ∧
    c.Reset.routePattern = "" ∧
    c.Reset.routePatterns = [] ∧
    c.Reset.URLParams.Keys = [] ∧
    c.Reset.URLParams.Values = [] ∧
    c.Reset.routeParams.Keys = [] ∧
    c.Reset.routeParams.Values = [] ∧
    c.Reset.methodNotAllowed = false ∧
    c.Reset.methodsAllowed = [] ∧
    rg.ServeHTTP none run pool =
      poolPut (RouteContext.Reset (run { (poolGet pool).1 with Routes := true }))
        (poolGet pool).2 ∧
    (poolGet (rg.ServeHTTP none run pool)).1 = RouteContext.empty ∧
    (poolGet (rg.ServeHTTP none run pool)).1.URLParams.Keys = [] ∧
    (poolGet (rg.ServeHTTP none run pool)).1.URLParams.Values = [] ∧
    (poolGet (rg.ServeHTTP none run pool)).1.routeParams.Keys = [] ∧
    (poolGet (rg.ServeHTTP none run pool)).1.routeParams.Values = [] := by
  have hserve : rg.ServeHTTP none run pool =
      poolPut (RouteContext.Reset (run { (poolGet pool).1 with Routes := true }))
        (poolGet pool).2 := by
    rw [RouterGroup.ServeHTTP, hs]
  have hget : (poolGet (rg.ServeHTTP none run pool)).1 = RouteContext.empty := by
    rw [hserve]
    rfl
  refine ⟨rfl, rfl, rfl, rfl, rfl, rfl, rfl, rfl, rfl, rfl, rfl, rfl, hserve, hget, ?_, ?_, ?_, ?_⟩
    <;> rw [hget] <;> rfl

/-- Witness for C3 with one stale context in the pool and a handler run
that fills the parameter sequences. -/
theorem C3_witness :
    RouterGroup.ServeHTTP { handler := some [] } none
        (fun ctx => { ctx with URLParams := ⟨["id"], ["7"]⟩ })
        [{ RoutePath := "/stale" }] =
      [RouteContext.empty] ∧
    (poolGet (RouterGroup.ServeHTTP { handler := some [] } none
        (fun ctx => { ctx with URLParams := ⟨["id"], ["7"]⟩ })
        [{ RoutePath := "/stale" }])).1.URLParams.Keys = [] := by
  have := C3_context_pool_reset { handler := some [] }
    (fun ctx => { ctx with URLParams := ⟨["id"], ["7"]⟩ })
    [{ RoutePath := "/stale" }] {} [] rfl
  exact ⟨this.2.2.2.2.2.2.2.2.2.2.2.2.1, this.2.2.2.2.2.2.2.2.2.2.2.2.2.2.1⟩

/-- Fetching the element a concatenation appends at its own index. -/
theorem getD_concat (l : List String) (x d : String) :
    (l ++ [x]).getD l.length d = x := by
  induction l with
  | nil => rfl
  | cons a t ih => exact ih

/-- Setting the element a concatenation appends at its own index. -/
theorem set_concat (l : List String) (x y : String) :
    (l ++ [x]).set l.length y = l ++ [y] := by
  induction l with
  | nil => rfl
  | cons a t ih => simp [ih]

/-- The default-fetch of the last position agrees with `getLast?`. -/
theorem getD_last (l : List String) (hl : l ≠ []) (d : String) :
    some (l.getD (l.length - 1) d) = l.getLast? := by
  rcases l.eq_nil_or_concat with rfl | ⟨t, x, rfl⟩
  · cases hl rfl
  · simp only [List.concat_eq_append]
    have hlen : (t ++ [x]).length - 1 = t.length := by simp
    rw [hlen, getD_concat, List.getLast?_concat]

/-- C7: before delegating to a mounted table, the parent rewrites the
remaining route path to a slash followed by the value captured by the
trailing wildcard parameter, blanks that wildcard entry's value in
`URLParams`, and leaves the working captures untouched; when no wildcard
value was captured the remaining route path becomes a bare slash. -/
theorem C7_mount_path_rewrite (ctx : RouteContext) (ks vs us ws : List String) (v w : String)
    (hrp : ctx.routeParams = ⟨ks ++ ["*"], vs ++ [v]⟩) (hlen : vs.length = ks.length)
    (hup : ctx.URLParams = ⟨us ++ ["*"], ws ++ [w]⟩) (hulen : ws.length = us.length) :
    nextRoutePath ctx = "/" ++ v ∧
    (mountHandlerStep ctx).RoutePath = "/" ++ v ∧
    (mountHandlerStep ctx).URLParams = ⟨us ++ ["*"], ws ++ [""]⟩ ∧
    (mountHandlerStep ctx).routeParams = ctx.routeParams ∧
    (∀ ctx2 : RouteContext, ctx2.routeParams.Keys.getLast? ≠ some "*" →
      nextRoutePath ctx2 = "/" ∧ (mountHandlerStep ctx2).RoutePath = "/") := by
  have hnext : nextRoutePath ctx = "/" ++ v := by
    rw [nextRoutePath, hrp]
    have h1 : ((ks ++ ["*"]).length - 1) = ks.length := by simp
    rw [if_pos]
    · rw [h1, ← hlen, getD_concat]
    · refine ⟨by simp, ?_, ?_⟩
      · rw [h1, getD_concat]
      · rw [h1]
        simp [← hlen]
  have hustep : (mountHandlerStep ctx).URLParams = ⟨us ++ ["*"], ws ++ [""]⟩ ∧
      (mountHandlerStep ctx).RoutePath = nextRoutePath ctx ∧
      (mountHandlerStep ctx).routeParams = ctx.routeParams := by
    rw [mountHandlerStep]
    simp only [hup]
    have h1 : ((us ++ ["*"]).length - 1) = us.length := by simp
    rw [if_pos]
    · refine ⟨?_, rfl, rfl⟩
      simp only [h1, ← hulen, set_concat]
    · refine ⟨by simp, ?_, ?_⟩
      · rw [h1, getD_concat]
      · rw [h1]
        simp [← hulen]
  refine ⟨hnext, hustep.2.1.trans hnext, hustep.1, hustep.2.2, ?_⟩
  intro ctx2 hlast
  have hnrp : nextRoutePath ctx2 = "/" := by
    rw [nextRoutePath]
    by_cases hk : ctx2.routeParams.Keys = []
    · simp [hk]
    · rw [if_neg]
      rintro ⟨-, h2, -⟩
      exact hlast ((getD_last ctx2.routeParams.Keys hk "").symm.trans (by rw [h2]))
  constructor
  · exact hnrp
  · rw [mountHandlerStep]
    split
    · simpa using hnrp
    · simpa using hnrp

/-- Witness for C7 on a context whose wildcard captured `users/7`. -/
theorem C7_witness :
    nextRoutePath { routeParams := ⟨["*"], ["users/7"]⟩,
                    URLParams := ⟨["*"], ["users/7"]⟩ } = "/users/7" ∧
    (mountHandlerStep { routeParams := ⟨["*"], ["users/7"]⟩,
                        URLParams := ⟨["*"], ["users/7"]⟩ }).URLParams = ⟨["*"], [""]⟩ := by
  have := C7_mount_path_rewrite
    { routeParams := ⟨["*"], ["users/7"]⟩, URLParams := ⟨["*"], ["users/7"]⟩ }
    [] [] [] [] "users/7" "users/7" rfl rfl rfl rfl
  exact ⟨this.1, this.2.2.1⟩

/-- Setting the not-found handler yields that handler. -/
theorem notFound_self (g : GroupT) (h : Nat) :
    (GroupT.NotFound h g).notFoundHandler = some h := by
  cases g
  rfl

/-- Setting the not-found handler leaves the not-allowed handler. -/
theorem notFound_keeps_na (g : GroupT) (h : Nat) :
    (GroupT.NotFound h g).notAllowedHandler = g.notAllowedHandler := by
  cases g
  rfl

/-- Setting the not-allowed handler yields that handler. -/
theorem notAllowed_self (g : GroupT) (h : Nat) :
    (GroupT.MethodNotAllowed h g).notAllowedHandler = some h := by
  cases g
  rfl

/-- Setting the not-allowed handler leaves the not-found handler. -/
theorem notAllowed_keeps_nf (g : GroupT) (h : Nat) :
    (GroupT.MethodNotAllowed h g).notFoundHandler = g.notFoundHandler := by
  cases g
  rfl

/-- The sub-groups after setting the not-found handler. -/
theorem notFound_subs (g : GroupT) (h : Nat) :
    (GroupT.NotFound h g).subs = notFoundSubs h g.subs := by
  cases g
  rfl

/-- The sub-groups after setting the not-allowed handler. -/
theorem notAllowed_subs (g : GroupT) (h : Nat) :
    (GroupT.MethodNotAllowed h g).subs = notAllowedSubs h g.subs := by
  cases g
  rfl

/-- A sub-group without its own not-found handler receives the
propagated one. -/
theorem mem_notFoundSubs_of_none {s : GroupT} {subs : List GroupT} (hs : s ∈ subs)
    (hn : s.notFoundHandler = none) (h : Nat) :
    GroupT.NotFound h s ∈ notFoundSubs h subs := by
  induction subs with
  | nil => cases hs
  | cons g gs ih =>
    rw [notFoundSubs]
    rcases List.mem_cons.mp hs with rfl | hs2
    · rw [if_pos hn]
      exact List.mem_cons_self _ _
    · exact List.mem_cons_of_mem _ (ih hs2)

/-- A sub-group with its own not-found handler is kept untouched. -/
theorem mem_notFoundSubs_of_some {s : GroupT} {subs : List GroupT} (hs : s ∈ subs)
    (hn : s.notFoundHandler ≠ none) (h : Nat) :
    s ∈ notFoundSubs h subs := by
  induction subs with
  | nil => cases hs
  | cons g gs ih =>
    rw [notFoundSubs]
    rcases List.mem_cons.mp hs with rfl | hs2
    · rw [if_neg hn]
      exact List.mem_cons_self _ _
    · exact List.mem_cons_of_mem _ (ih hs2)

/-- A sub-group without its own not-allowed handler receives the
propagated one. -/
theorem mem_notAllowedSubs_of_none {s : GroupT} {subs : List GroupT} (hs : s ∈ subs)
    (hn : s.notAllowedHandler = none) (h : Nat) :
    GroupT.MethodNotAllowed h s ∈ notAllowedSubs h subs := by
  induction subs with
  | nil => cases hs
  | cons g gs ih =>
    rw [notAllowedSubs]
    rcases List.mem_cons.mp hs with rfl | hs2
    · rw [if_pos hn]
      exact List.mem_cons_self _ _
    · exact List.mem_cons_of_mem _ (ih hs2)

/-- A sub-group with its own not-allowed handler is kept untouched. -/
theorem mem_notAllowedSubs_of_some {s : GroupT} {subs : List GroupT} (hs : s ∈ subs)
    (hn : s.notAllowedHandler ≠ none) (h : Nat) :
    s ∈ notAllowedSubs h subs := by
  induction subs with
  | nil => cases hs
  | cons g gs ih =>
    rw [notAllowedSubs]
    rcases List.mem_cons.mp hs with rfl | hs2
    · rw [if_neg hn]
      exact List.mem_cons_self _ _
    · exact List.mem_cons_of_mem _ (ih hs2)

/-- The not-found handler the mounted child ends up with: the parent's
one exactly when the child had none. -/
theorem mountedChild_nf (p c : GroupT) :
    (mountedChild p c).notFoundHandler =
      (if c.notFoundHandler = none then p.notFoundHandler.orElse (fun _ => none)
       else c.notFoundHandler) := by
  rw [mountedChild]
  have hbase : ∀ c1 : GroupT,
      (if c1.notAllowedHandler = none then
        (match p.notAllowedHandler with
          | some h => GroupT.MethodNotAllowed h c1
          | none => c1)
       else c1).notFoundHandler = c1.notFoundHandler := by
    intro c1
    split
    · rcases p.notAllowedHandler with _ | h
      · rfl
      · exact notAllowed_keeps_nf c1 h
    · rfl
  rw [hbase]
  by_cases hc : c.notFoundHandler = none
  · rw [if_pos hc, if_pos hc]
    rcases hp : p.notFoundHandler with _ | h
    · simpa using hc
    · simpa using notFound_self c h
  · rw [if_neg hc, if_neg hc]

/-- The not-allowed handler the mounted child ends up with: the parent's
one exactly when the child had none. -/
theorem mountedChild_na (p c : GroupT) :
    (mountedChild p c).notAllowedHandler =
      (if c.notAllowedHandler = none then p.notAllowedHandler.orElse (fun _ => none)
       else c.notAllowedHandler) := by
  rw [mountedChild]
  have hna1 : (if c.notFoundHandler = none then
      (match p.notFoundHandler with
        | some h => GroupT.NotFound h c
        | none => c)
      else c).notAllowedHandler = c.notAllowedHandler := by
    split
    · rcases p.notFoundHandler with _ | h
      · rfl
      · exact notFound_keeps_na c h
    · rfl
  simp only [hna1]
  by_cases hcna : c.notAllowedHandler = none
  · rcases hp : p.notAllowedHandler with _ | h
    · rw [if_pos hcna, if_pos hcna]
      simpa using hna1.trans hcna
    · rw [if_pos hcna, if_pos hcna]
      simpa using notAllowed_self _ h
  · rw [if_neg hcna, if_neg hcna]
    exact hna1

/-- C9: at mount time a sub-router without its own not-found
(method-not-allowed) handler inherits the parent's, while a sub-router
that has overridden one keeps it; and setting `NotFound`
(`MethodNotAllowed`) on a group installs the handler on the group and
propagates it recursively to exactly the mounted sub-groups that have
not set their own. -/
theorem C9_failure_handler_inheritance (p c g : GroupT) (h hc : Nat) :
    (p.notFoundHandler = some h → c.notFoundHandler = none →
      ∃ c', (p.mount c).subs.getLast? = some c' ∧ c'.notFoundHandler = some h) ∧
    (c.notFoundHandler = some hc →
      ∃ c', (p.mount c).subs.getLast? = some c' ∧ c'.notFoundHandler = some hc) ∧
    (p.notAllowedHandler = some h → c.notAllowedHandler = none →
      ∃ c', (p.mount c).subs.getLast? = some c' ∧ c'.notAllowedHandler = some h) ∧
    (c.notAllowedHandler = some hc →
      ∃ c', (p.mount c).subs.getLast? = some c' ∧ c'.notAllowedHandler = some hc) ∧
    ((GroupT.NotFound h g).notFoundHandler = some h) ∧
    (∀ s ∈ g.subs, s.notFoundHandler = none →
      GroupT.NotFound h s ∈ (GroupT.NotFound h g).subs) ∧
    (∀ s ∈ g.subs, s.notFoundHandler ≠ none → s ∈ (GroupT.NotFound h g).subs) ∧
    ((GroupT.MethodNotAllowed h g).notAllowedHandler = some h) ∧
    (∀ s ∈ g.subs, s.notAllowedHandler = none →
      GroupT.MethodNotAllowed h s ∈ (GroupT.MethodNotAllowed h g).subs) ∧
    (∀ s ∈ g.subs, s.notAllowedHandler ≠ none →
      s ∈ (GroupT.MethodNotAllowed h g).subs) := by
  have hlast : (p.mount c).subs.getLast? = some (mountedChild p c) := by
    rw [GroupT.mount]
    exact List.getLast?_concat _
  refine ⟨?_, ?_, ?_, ?_, notFound_self g h, ?_, ?_, notAllowed_self g h, ?_, ?_⟩
  · intro hp hcn
    exact ⟨mountedChild p c, hlast, by rw [mountedChild_nf, if_pos hcn, hp]; rfl⟩
  · intro hcs
    refine ⟨mountedChild p c, hlast, ?_⟩
    rw [mountedChild_nf, if_neg (by rw [hcs]; exact fun hx => by cases hx), hcs]
  · intro hp hcn
    exact ⟨mountedChild p c, hlast, by rw [mountedChild_na, if_pos hcn, hp]; rfl⟩
  · intro hcs
    refine ⟨mountedChild p c, hlast, ?_⟩
    rw [mountedChild_na, if_neg (by rw [hcs]; exact fun hx => by cases hx), hcs]
  · intro s hs hn
    rw [notFound_subs]
    exact mem_notFoundSubs_of_none hs hn h
  · intro s hs hn
    rw [notFound_subs]
    exact mem_notFoundSubs_of_some hs hn h
  · intro s hs hn
    rw [notAllowed_subs]
    exact mem_notAllowedSubs_of_none hs hn h
  · intro s hs hn
    rw [notAllowed_subs]
    exact mem_notAllowedSubs_of_some hs hn h

/-- Witness for C9: a parent with handlers mounts a child without any,
and a propagation reaches a grand-child. -/
theorem C9_witness :
    (∃ c', ((GroupT.mk (some 1) (some 2) []).mount (GroupT.mk none none [])).subs.getLast? =
        some c' ∧ c'.notFoundHandler = some 1) ∧
    GroupT.NotFound 7 (GroupT.mk none none [GroupT.mk none none []]) =
      GroupT.mk (some 7) none [GroupT.mk (some 7) none []] := by
  constructor
  · exact (C9_failure_handler_inheritance (GroupT.mk (some 1) (some 2) [])
      (GroupT.mk none none []) (GroupT.mk none none []) 1 0).1 rfl rfl
  · have := (C9_failure_handler_inheritance (GroupT.mk (some 1) (some 2) [])
      (GroupT.mk none none []) (GroupT.mk none none [GroupT.mk none none []]) 7 0).2.2.2.2.1
    rw [GroupT.NotFound, notFoundSubs, notFoundSubs, GroupT.NotFound, notFoundSubs]
    rfl

/-- A slash-free character list is one whole segment. -/
theorem splitSegs_no_slash (cs : List Char) (h : ∀ ch ∈ cs, ch ≠ '/') :
    splitSegs cs = [String.mk cs] := by
  induction cs with
  | nil => rfl
  | cons c rest ih =>
    have hc : c ≠ '/' := h c (List.mem_cons_self _ _)
    rw [splitSegs, if_neg hc, ih (fun ch hm => h ch (List.mem_cons_of_mem _ hm))]

/-- Splitting separates a slash-free run at the following slash. -/
theorem splitSegs_append (cs ds : List Char) (h : ∀ ch ∈ cs, ch ≠ '/') :
    splitSegs (cs ++ '/' :: ds) = String.mk cs :: splitSegs ds := by
  induction cs with
  | nil => rw [List.nil_append, splitSegs, if_pos rfl]
  | cons c rest ih =>
    have hc : c ≠ '/' := h c (List.mem_cons_self _ _)
    rw [List.cons_append, splitSegs, if_neg hc,
      ih (fun ch hm => h ch (List.mem_cons_of_mem _ hm))]

/-- Path splitting for the three-segment paths of the catch-all
example. -/
theorem splitPath_files_sub (seg : String) (h : ∀ ch ∈ seg.data, ch ≠ '/') :
    splitPath ("/files/sub/" ++ seg) = ["files", "sub", seg] := by
  have h1 : splitPath ("/files/sub/" ++ seg) =
      splitSegs ("files".data ++ '/' :: ("sub".data ++ '/' :: seg.data)) := rfl
  rw [h1, splitSegs_append _ _ (by decide), splitSegs_append _ _ (by decide),
    splitSegs_no_slash _ h]

/-- Path splitting for the two-segment paths of the catch-all
example. -/
theorem splitPath_files (seg : String) (h : ∀ ch ∈ seg.data, ch ≠ '/') :
    splitPath ("/files/" ++ seg) = ["files", seg] := by
  have h1 : splitPath ("/files/" ++ seg) =
      splitSegs ("files".data ++ '/' :: seg.data) := rfl
  rw [h1, splitSegs_append _ _ (by decide), splitSegs_no_slash _ h]

/-- C1: the trie walk attempts static, regex, parametric and wildcard
children in that order with backtracking, and the wildcard — attempted
last with an always-succeeding capture — can never shadow a more
specific route: the specific handler wins for both registration orders,
while the catch-all still serves the paths the specific route cannot,
a static child that dead-ends downstream is retried against the
parametric sibling, a static sibling beats the parametric one in both
registration orders, and a matching regex sibling beats the plain
parametric one. -/
theorem C1_trie_priority_backtracking (hc hs h1 h2 h5 h6 : Nat) (seg : String)
    (hne : seg ≠ "") (hnoslash : ∀ ch ∈ seg.data, ch ≠ '/') (hnsub : seg ≠ "sub") :
    ((FindRoute (InsertRoute (InsertRoute RTree.empty (.one .GET) "/files/*" hc)
        (.one .GET) "/files/sub/\x7bid\x7d" hs) {} .GET ("/files/sub/" ++ seg)).2.map
      (fun p => p.2.handler)) = some hs ∧
    ((FindRoute (InsertRoute (InsertRoute RTree.empty (.one .GET) "/files/sub/\x7bid\x7d" hs)
        (.one .GET) "/files/*" hc) {} .GET ("/files/sub/" ++ seg)).2.map
      (fun p => p.2.handler)) = some hs ∧
    (((FindRoute (InsertRoute (InsertRoute RTree.empty (.one .GET) "/files/*" hc)
        (.one .GET) "/files/sub/\x7bid\x7d" hs) {} .GET ("/files/" ++ seg)).2.map
      (fun p => p.2.handler)) = some hc ∧
     (FindRoute (InsertRoute (InsertRoute RTree.empty (.one .GET) "/files/*" hc)
        (.one .GET) "/files/sub/\x7bid\x7d" hs) {} .GET ("/files/" ++ seg)).1.URLParams =
       ⟨["*"], [seg]⟩) ∧
    ((FindRoute (InsertRoute (InsertRoute RTree.empty (.one .GET) "/a/static/x" h1)
        (.one .GET) "/a/\x7bp\x7d/y" h2) {} .GET "/a/static/y").2.map
      (fun p => p.2.handler)) = some h2 ∧
    ((FindRoute (InsertRoute (InsertRoute RTree.empty (.one .GET) "/a/\x7bx\x7d" h1)
        (.one .GET) "/a/static" h2) {} .GET "/a/static").2.map
      (fun p => p.2.handler)) = some h2 ∧
    ((FindRoute (InsertRoute (InsertRoute RTree.empty (.one .GET) "/a/static" h2)
        (.one .GET) "/a/\x7bx\x7d" h1) {} .GET "/a/static").2.map
      (fun p => p.2.handler)) = some h2 ∧
    ((FindRoute (InsertRoute (InsertRoute RTree.empty (.one .GET) "/a/\x7bx:\\d+\x7d" h5)
        (.one .GET) "/a/\x7by\x7d" h6) {} .GET "/a/123").2.map
      (fun p => p.2.handler)) = some h5 ∧
    ((FindRoute (InsertRoute (InsertRoute RTree.empty (.one .GET) "/a/\x7bx:\\d+\x7d" h5)
        (.one .GET) "/a/\x7by\x7d" h6) {} .GET "/a/abc").2.map
      (fun p => p.2.handler)) = some h6 := by
  refine ⟨?_, ?_, ⟨?_, ?_⟩, rfl, rfl, rfl, rfl, rfl⟩
  · simp only [FindRoute, splitPath_files_sub seg hnoslash]
    simp [InsertRoute, parsePattern, splitPath, parseSeg, splitColon, findCore, alookup,
      findRegex, epLookup, RTree.static, RTree.regex, RTree.param, RTree.wild, RTree.endpoints,
      insertSegs, setStatic, setEndpoints, setEp, RTree.empty, hne, Ne.symm hnsub]
  · simp only [FindRoute, splitPath_files_sub seg hnoslash]
    simp [InsertRoute, parsePattern, splitPath, parseSeg, splitColon, findCore, alookup,
      findRegex, epLookup, RTree.static, RTree.regex, RTree.param, RTree.wild, RTree.endpoints,
      insertSegs, setStatic, setEndpoints, setEp, RTree.empty, hne, Ne.symm hnsub]
  · simp only [FindRoute, splitPath_files seg hnoslash]
    simp [InsertRoute, parsePattern, splitPath, parseSeg, splitColon, findCore, alookup,
      findRegex, epLookup, RTree.static, RTree.regex, RTree.param, RTree.wild, RTree.endpoints,
      insertSegs, setStatic, setEndpoints, setEp, RTree.empty, hne, Ne.symm hnsub, joinSegs]
  · simp only [FindRoute, splitPath_files seg hnoslash]
    simp [InsertRoute, parsePattern, splitPath, parseSeg, splitColon, findCore, alookup,
      findRegex, epLookup, RTree.static, RTree.regex, RTree.param, RTree.wild, RTree.endpoints,
      insertSegs, setStatic, setEndpoints, setEp, RTree.empty, hne, Ne.symm hnsub, joinSegs,
      RouteParams.push]


/-- Witness for C1 at the captured segment `42` and concrete handlers. -/
theorem C1_witness :
    ((FindRoute (InsertRoute (InsertRoute RTree.empty (.one .GET) "/files/*" 10)
        (.one .GET) "/files/sub/\x7bid\x7d" 20) {} .GET "/files/sub/42").2.map
      (fun p => p.2.handler)) = some 20 ∧
    ((FindRoute (InsertRoute (InsertRoute RTree.empty (.one .GET) "/files/*" 10)
        (.one .GET) "/files/sub/\x7bid\x7d" 20) {} .GET "/files/42").2.map
      (fun p => p.2.handler)) = some 10 := by
  have := C1_trie_priority_backtracking 10 20 1 2 5 6 "42" (by decide) (by decide) (by decide)
  exact ⟨this.1, this.2.2.1.1⟩

/-- The wildcard rewrite leaves a slash-terminated run of plain
characters unchanged. -/
theorem rwAux_clean : ∀ (cs : List Char), (∀ ch ∈ cs, ch ≠ '/' ∧ ch ≠ '*') → ∀ (b : Bool),
    rwAux b false (cs ++ ['/']) = cs ++ ['/']
  | [], _, b => by simp [rwAux]
  | c :: rest, h, b => by
    have hc := h c (List.mem_cons_self _ _)
    have ih := rwAux_clean rest (fun ch hm => h ch (List.mem_cons_of_mem _ hm)) false
    simp [rwAux, hc.1, hc.2, ih]

/-- C8: the reconstructed route pattern is the concatenation of the
accumulated fragments in descent order with the interior mount wildcard
collapsed and the trailing slash trimmed; a terminal wildcard stays
visible as a star, and the behaviour agrees with the source tests of
`RoutePattern` and `replaceWildcards`. -/
theorem C8_route_pattern (s : String) (hne : s ≠ "")
    (hch : ∀ ch ∈ s.data, ch ≠ '/' ∧ ch ≠ '*') :
    RouteContext.RoutePattern { routePatterns := ["/api/", "*/", s ++ "/"] } = "/api/" ++ s ∧
    RouteContext.RoutePattern { routePatterns := ["/api/", "users/", "\x7bid\x7d/"] } =
      "/api/users/\x7bid\x7d" ∧
    RouteContext.RoutePattern ({} : RouteContext) = "" ∧
    RouteContext.RoutePattern { routePatterns := ["/files/*"] } = "/files/*" ∧
    replaceWildcards "/" = "/" ∧
    replaceWildcards "/api/users" = "/api/users" ∧
    replaceWildcards "/api/*/users" = "/api/users" ∧
    replaceWildcards "/api/*/users/*/posts" = "/api/users/posts" ∧
    replaceWildcards "/api/*/users/*/posts/" = "/api/users/posts/" := by
  refine ⟨?_, by decide, by decide, by decide, by decide, by decide, by decide, by decide,
    by decide⟩
  have hd : (concatAll ["/api/", "*/", s ++ "/"]).data =
      '/' :: 'a' :: 'p' :: 'i' :: '/' :: '*' :: '/' :: ((s.data ++ ['/']) ++ []) := rfl
  have hd2 : (concatAll ["/api/", "*/", s ++ "/"]).data =
      '/' :: 'a' :: 'p' :: 'i' :: '/' :: '*' :: '/' :: (s.data ++ ['/']) := by
    rw [hd, List.append_nil]
  have hrw : rwAux false false ('/' :: 'a' :: 'p' :: 'i' :: '/' :: '*' :: '/' ::
      (s.data ++ ['/'])) = '/' :: 'a' :: 'p' :: 'i' :: '/' :: (s.data ++ ['/']) := by
    simp [rwAux, rwAux_clean s.data hch true]
  have hp : replaceWildcards (concatAll ["/api/", "*/", s ++ "/"]) = "/api/" ++ (s ++ "/") := by
    rw [replaceWildcards, hd2, hrw]
    exact rfl
  obtain ⟨c0, cs0, hrev⟩ : ∃ c0 cs0, s.data.reverse = c0 :: cs0 := by
    rcases hx : s.data.reverse with _ | ⟨c0, cs0⟩
    · exfalso
      apply hne
      have : s.data = [] := by simpa using congrArg List.reverse hx
      exact congrArg String.mk this
    · exact ⟨c0, cs0, rfl⟩
  have hc0 : c0 ≠ '/' := by
    have hmem : c0 ∈ s.data := by
      rw [← List.mem_reverse, hrev]
      exact List.mem_cons_self _ _
    exact (hch c0 hmem).1
  have hprev : ("/api/" ++ (s ++ "/")).data.reverse =
      '/' :: ((c0 :: cs0) ++ ['/', 'i', 'p', 'a', '/']) := by
    have : ("/api/" ++ (s ++ "/")).data = "/api/".data ++ (s.data ++ ['/']) := rfl
    rw [this, List.reverse_append, List.reverse_append, hrev]
    simp
  have hne2 : "/api/" ++ (s ++ "/") ≠ "/" := by
    intro hcontra
    have := congrArg String.data hcontra
    simp only [String.data] at this
    cases this
  have htrim2 : trimSuffix ("/api/" ++ (s ++ "/")) "//" = "/api/" ++ (s ++ "/") := by
    rw [trimSuffix, if_neg]
    intro hcontra
    rw [hprev] at hcontra
    have : isPre ['/'] ((c0 :: cs0) ++ ['i', 'p', 'a', '/']) = true := by
      simpa [isPre] using hcontra
    simp [isPre, hc0.symm] at this
  have htrim1 : trimSuffix ("/api/" ++ (s ++ "/")) "/" = "/api/" ++ s := by
    rw [trimSuffix, if_pos]
    · have hassoc : ("/api/" ++ (s ++ "/")).data = ("/api/".data ++ s.data) ++ ['/'] := by
        show "/api/".data ++ (s.data ++ ['/']) = _
        rw [List.append_assoc]
      rw [hassoc]
      have hlen : (("/api/".data ++ s.data) ++ ['/']).length - "/".data.length =
          ("/api/".data ++ s.data).length := by
        simp
      rw [hlen, List.take_left]
      exact rfl
    · rw [hprev]
      simp [isPre]
  show (if replaceWildcards (concatAll ["/api/", "*/", s ++ "/"]) = "/" then
      replaceWildcards (concatAll ["/api/", "*/", s ++ "/"])
    else trimSuffix (trimSuffix (replaceWildcards (concatAll ["/api/", "*/", s ++ "/"]))
      "//") "/") = "/api/" ++ s
  rw [hp, if_neg hne2, htrim2, htrim1]


/-- Witness for C8 at the fragment `users`. -/
theorem C8_witness :
    RouteContext.RoutePattern { routePatterns := ["/api/", "*/", "users/"] } = "/api/users" ∧
    RouteContext.RoutePattern { routePatterns := ["/api/", "users/", "\x7bid\x7d/"] } =
      "/api/users/\x7bid\x7d" := by
  have := C8_route_pattern "users" (by decide) (by decide)
  exact ⟨this.1, this.2.1⟩

end Web
